import Mathlib

/-!
Shallow embedding of the SEO cluster crawler core:
`navigation_link_detector.py` (NavigationLinkDetector),
`link_mapper.py` (LinkMapper), and the crawl frontier loop,
sitemap check and same-domain test of `seo_crawler.py`
(SEOClusterCrawler).

URLs are opaque strings.  Python dictionaries whose values are
sets/lists are modelled as a finite key set (`Finset String`) together
with a total lookup function defaulting to the empty set / empty list,
which is exactly `dict.get(k, default)` semantics; the key set is kept
because the code iterates over, and counts, the dict's keys.  The
floating-point navigation threshold is modelled as a rational number;
at the instance the spec pins down (10 pages, threshold 0.8) the IEEE
double product `10 * 0.8` is exactly `8.0`, so the rational model and
the Python code agree there.  HTTP fetching is an oracle
`String → Option (String × Nat)`: `none` is the
`requests.exceptions.RequestException` path of `fetch_page` (which
returns `(None, None)`), and `some (body, status)` is a completed
request.  Link extraction and sitemap parsing are likewise oracles,
keyed by the fetched URL (the body a URL yields is determined by the
fetch oracle, so this loses no generality).
-/

namespace SeoCrawler

/-- State of `NavigationLinkDetector` (`navigation_link_detector.py`):
`threshold`, the occurrence dictionary (key set `occDom` plus lookup
`occ` defaulting to the empty set), `total_pages`, and the
`global_links` set. -/
structure NavState where
  threshold : ℚ
  occDom : Finset String
  occ : String → Finset String
  total_pages : Nat
  global_links : Finset String

/-- `NavigationLinkDetector.__init__`. -/
def navInit (threshold : ℚ) : NavState :=
  { threshold := threshold
    occDom := ∅
    occ := fun _ => ∅
    total_pages := 0
    global_links := ∅ }

/-- The `for link in links` loop body of
`NavigationLinkDetector.add_page_links`, acting on the occurrence
dictionary (key set, lookup): create the link's entry if missing and add
`page_url` to its occurrence set, then continue with the remaining
links. -/
def trackLinks (page_url : String) :
    List String → Finset String × (String → Finset String) →
      Finset String × (String → Finset String)
  | [], acc => acc
  | link :: rest, acc =>
    trackLinks page_url rest
      (insert link acc.1, fun l => if l = link then insert page_url (acc.2 l) else acc.2 l)

/-- `NavigationLinkDetector.add_page_links`: bump `total_pages`, then for
each link in order create its occurrence entry if missing and add
`page_url` to its occurrence set. -/
def NavState.add_page_links (st : NavState) (page_url : String) (links : List String) : NavState :=
  let tracked := trackLinks page_url links (st.occDom, st.occ)
  { st with total_pages := st.total_pages + 1, occDom := tracked.1, occ := tracked.2 }

/-- `NavigationLinkDetector.detect_global_links`: if no pages were
recorded, return the empty set leaving the stored `global_links`
untouched; otherwise store and return the tracked links whose
occurrence-set size is at least `total_pages * threshold`. -/
def NavState.detect_global_links (st : NavState) : Finset String × NavState :=
  if st.total_pages = 0 then (∅, st)
  else
    let threshold_count : ℚ := (st.total_pages : ℚ) * st.threshold
    let g := st.occDom.filter (fun link => threshold_count ≤ ((st.occ link).card : ℚ))
    (g, { st with global_links := g })

/-- `NavigationLinkDetector.is_global_link`. -/
def NavState.is_global_link (st : NavState) (url : String) : Bool :=
  decide (url ∈ st.global_links)

/-- `NavigationLinkDetector.filter_global_links`: list comprehension
keeping the links not in `global_links`. -/
def NavState.filter_global_links (st : NavState) (links : List String) : List String :=
  links.filter (fun link => decide (link ∉ st.global_links))

/-- State of `LinkMapper` (`link_mapper.py`): the outgoing and backlink
dictionaries (key set plus lookup defaulting to `[]`), the
`total_links_mapped` counter, and the filtered views populated by
`apply_global_link_filtering`. -/
structure LinkMapper where
  outDom : Finset String
  outgoing : String → List String
  backDom : Finset String
  backlinks : String → List String
  total_links_mapped : Nat
  filteredOutDom : Finset String
  filtered_outgoing : String → List String
  filteredBackDom : Finset String
  filtered_backlinks : String → List String

/-- `LinkMapper.__init__` (the crawler always passes a
`NavigationLinkDetector`, carried separately in this model). -/
def mapperInit : LinkMapper :=
  { outDom := ∅
    outgoing := fun _ => []
    backDom := ∅
    backlinks := fun _ => []
    total_links_mapped := 0
    filteredOutDom := ∅
    filtered_outgoing := fun _ => []
    filteredBackDom := ∅
    filtered_backlinks := fun _ => [] }

/-- `LinkMapper.add_link`: ensure the `outgoing[source]` entry exists,
append `target` and bump the counter only if `target` is absent; then
ensure the `backlinks[target]` entry exists and append `source` only if
absent (no counter bump on the backlink side). -/
def LinkMapper.add_link (m : LinkMapper) (source_url target_url : String) : LinkMapper :=
  let outList := m.outgoing source_url
  let step1 :=
    if target_url ∈ outList then
      { m with outDom := insert source_url m.outDom }
    else
      { m with
        outDom := insert source_url m.outDom
        outgoing := Function.update m.outgoing source_url (outList ++ [target_url])
        total_links_mapped := m.total_links_mapped + 1 }
  let backList := step1.backlinks target_url
  if source_url ∈ backList then
    { step1 with backDom := insert target_url step1.backDom }
  else
    { step1 with
      backDom := insert target_url step1.backDom
      backlinks := Function.update step1.backlinks target_url (backList ++ [source_url]) }

/-- `LinkMapper.add_page_links` restricted to the mapper's own state:
`add_link` for each target in order.  (The forwarding of the page to the
navigation detector is `NavState.add_page_links`; the two objects share
no state, and the crawl-loop embedding below performs both updates.) -/
def LinkMapper.add_page_links (m : LinkMapper) (source_url : String)
    (target_urls : List String) : LinkMapper :=
  target_urls.foldl (fun acc t => acc.add_link source_url t) m

/-- `LinkMapper.apply_global_link_filtering` (with the detector present):
rebuild the filtered maps, keeping only the entries whose filtered list
is non-empty. -/
def LinkMapper.apply_global_link_filtering (m : LinkMapper) (nav : NavState) : LinkMapper :=
  { m with
    filteredOutDom :=
      m.outDom.filter (fun source => nav.filter_global_links (m.outgoing source) ≠ [])
    filtered_outgoing := fun source => nav.filter_global_links (m.outgoing source)
    filteredBackDom :=
      m.backDom.filter (fun target => nav.filter_global_links (m.backlinks target) ≠ [])
    filtered_backlinks := fun target => nav.filter_global_links (m.backlinks target) }

/-- The `pages_with_filtered_outgoing_links` statistic of
`LinkMapper.get_link_data`: the number of keys of the filtered outgoing
map. -/
def LinkMapper.pagesWithFilteredOutgoing (m : LinkMapper) : Nat :=
  m.filteredOutDom.card

/-- The `pages_with_filtered_backlinks` statistic of
`LinkMapper.get_link_data`: the number of keys of the filtered backlink
map. -/
def LinkMapper.pagesWithFilteredBacklinks (m : LinkMapper) : Nat :=
  m.filteredBackDom.card

/-- One recorded call to the occurrence collector: a page URL together
with the links found on that page. -/
structure NavOp where
  page : String
  links : List String

/-- A sequence of `add_page_links` calls applied to a fresh detector. -/
def applyNavOps (threshold : ℚ) (ops : List NavOp) : NavState :=
  ops.foldl (fun st op => st.add_page_links op.page op.links) (navInit threshold)

/-- One mutating operation on a `LinkMapper`. -/
inductive MapperOp where
  | addLink (source target : String)
  | addPageLinks (source : String) (targets : List String)

/-- Apply one `MapperOp`. -/
def applyMapperOp (m : LinkMapper) : MapperOp → LinkMapper
  | .addLink s t => m.add_link s t
  | .addPageLinks s ts => m.add_page_links s ts

/-- A sequence of `add_link` / `add_page_links` calls applied to a fresh
mapper. -/
def applyMapperOps (ops : List MapperOp) : LinkMapper :=
  ops.foldl applyMapperOp mapperInit

/-- ASCII letter, the only admissible first character of a URL scheme in
`urllib.parse.urlsplit`. -/
def isSchemeStart (c : Char) : Bool :=
  (decide ('a' ≤ c) && decide (c ≤ 'z')) || (decide ('A' ≤ c) && decide (c ≤ 'Z'))

/-- A character admissible after the first one in a URL scheme
(`scheme_chars` of `urllib.parse`): letters, digits, `'+'`, `'-'`,
`'.'`. -/
def isSchemeChar (c : Char) : Bool :=
  isSchemeStart c || (decide ('0' ≤ c) && decide (c ≤ '9')) ||
    decide (c = '+') || decide (c = '-') || decide (c = '.')

/-- Splits a character list at its first `':'`: the text before the
colon and the text after it, or `none` when no colon occurs. -/
def splitAtColon : List Char → Option (List Char × List Char)
  | [] => none
  | ':' :: rest => some ([], rest)
  | c :: rest =>
    match splitAtColon rest with
    | some (pre, post) => some (c :: pre, post)
    | none => none

/-- The scheme-removal step of `urllib.parse.urlsplit`: when the text
before the first `':'` is non-empty, starts with an ASCII letter and
consists otherwise of scheme characters, the scheme and the colon are
dropped; in every other case (no colon, colon first, or an invalid
character before the colon) the input is kept whole. -/
def dropScheme (cs : List Char) : List Char :=
  match splitAtColon cs with
  | some (pre, post) =>
    match pre with
    | [] => cs
    | c :: rest => if isSchemeStart c && rest.all isSchemeChar then post else cs
  | none => cs

/-- The netloc ends at the first `'/'`, `'?'` or `'#'` after the double
slash, exactly as in `urllib.parse.urlsplit`. -/
def upToDelim : List Char → List Char
  | [] => []
  | c :: rest => if c = '/' ∨ c = '?' ∨ c = '#' then [] else c :: upToDelim rest

/-- The `netloc` component `urllib.parse.urlparse(url).netloc` used by
`is_same_domain`: after removing a leading valid scheme (if any), a
netloc is present only when the remainder starts with `"//"`, and it
extends to the first `'/'`, `'?'` or `'#'`; in every other case the
netloc is `""`. -/
def hostOf (url : String) : String :=
  match dropScheme url.toList with
  | '/' :: '/' :: rest => String.mk (upToDelim rest)
  | _ => ""

/-- Leftmost, non-overlapping removal of every occurrence of the
four-character pattern `www.` — the semantics of Python's
`domain.replace('www.', '')`. -/
def removeWww : List Char → List Char
  | 'w' :: 'w' :: 'w' :: '.' :: rest => removeWww rest
  | c :: rest => c :: removeWww rest
  | [] => []

/-- The domain normalisation applied by `SEOClusterCrawler.__init__` and
`is_same_domain`: Python's `domain.replace('www.', '')`, which removes
every occurrence of the substring `"www."`, not only a leading one. -/
def normalizeDomain (domain : String) : String :=
  String.mk (removeWww domain.toList)

/-- `SEOClusterCrawler.is_same_domain`, specialised to the crawler built
from `start_url` (whose `__init__` stores
`normalized_domain = urlparse(start_url).netloc.replace('www.', '')`):
normalise the candidate URL's host the same way and compare. -/
def is_same_domain (start_url url : String) : Bool :=
  normalizeDomain (hostOf url) == normalizeDomain (hostOf start_url)

/-- Stripping one leading `"www."` from a host, as the specification
words the normalisation. -/
def specStripLeadingWww (domain : String) : String :=
  match domain.toList with
  | 'w' :: 'w' :: 'w' :: '.' :: rest => String.mk rest
  | _ => domain

/-- Spec-worded same-domain test (host equality after stripping one
leading `"www."` from each side), for comparison with
`is_same_domain`. -/
def specSameDomain (start_url url : String) : Bool :=
  specStripLeadingWww (hostOf url) == specStripLeadingWww (hostOf start_url)

/-- One entry of the crawler's `pages_data` list: a successful page
record (the metadata/content fields are irrelevant to the claims and
omitted) or a fetch-error record. -/
inductive PageEntry where
  | ok (url : String) (status : Nat) (links : List String)
  | err (url : String) (status : Nat)
deriving DecidableEq

/-- The crawler's external collaborators: `fetch` is
`SEOClusterCrawler.fetch_page` (`none` = request exception, i.e. the
`(None, None)` return), `extract` gives `extract_internal_links` of the
body that `fetch` returns for a URL, and `parseSitemap` gives
`parse_sitemap` of a sitemap body (parse failure yields `[]`). -/
structure Env where
  fetch : String → Option (String × Nat)
  extract : String → List String
  parseSitemap : String → List String

/-- Mutable state of `SEOClusterCrawler.crawl`: the frontier queue, the
visited set, the loop's `page_count`, `pages_data`, the link mapper and
navigation detector, plus `fetch_log`, an instrumentation list recording
each URL passed to `fetch_page` by the loop (used to state
"fetched at most once"). -/
structure CrawlState where
  queue : List String
  visited : Finset String
  page_count : Nat
  pages_data : List PageEntry
  mapper : LinkMapper
  nav : NavState
  fetch_log : List String

/-- Crawler state right after `SEOClusterCrawler.__init__`. -/
def crawlInit (threshold : ℚ) : CrawlState :=
  { queue := []
    visited := ∅
    page_count := 0
    pages_data := []
    mapper := mapperInit
    nav := navInit threshold
    fetch_log := [] }

/-- One iteration of the `while` loop of `SEOClusterCrawler.crawl`:
dequeue, skip if visited, mark visited, fetch; on a non-empty body with
status 200 record links/edges/occurrences and enqueue unvisited
discoveries and count the page; on any other completed response record
an error entry and count the page; on a request exception (no status)
do nothing further. -/
def crawlStep (env : Env) (st : CrawlState) : CrawlState :=
  match st.queue with
  | [] => st
  | current :: rest =>
    if current ∈ st.visited then { st with queue := rest }
    else
      let visited := insert current st.visited
      let log := st.fetch_log ++ [current]
      match env.fetch current with
      | none => { st with queue := rest, visited := visited, fetch_log := log }
      | some (html, status) =>
        if html ≠ "" ∧ status = 200 then
          let links := env.extract current
          { queue := rest ++ links.filter (fun l => decide (l ∉ visited))
            visited := visited
            page_count := st.page_count + 1
            pages_data := st.pages_data ++ [.ok current status links]
            mapper := st.mapper.add_page_links current links
            nav := st.nav.add_page_links current links
            fetch_log := log }
        else if status ≠ 0 then
          { st with queue := rest, visited := visited
                    page_count := st.page_count + 1
                    pages_data := st.pages_data ++ [.err current status]
                    fetch_log := log }
        else
          { st with queue := rest, visited := visited, fetch_log := log }

/-- The `while self.queue and page_count < self.max_pages` loop, run with
explicit fuel (the Python loop always terminates, and every claim below
is stated for every fuel value, hence in particular at loop exit). -/
def crawlLoop (env : Env) (max_pages : Nat) : Nat → CrawlState → CrawlState
  | 0, st => st
  | fuel + 1, st =>
    if st.queue ≠ [] ∧ st.page_count < max_pages then
      crawlLoop env max_pages fuel (crawlStep env st)
    else st

/-- `SEOClusterCrawler.check_sitemap`: fetch `root_url ++ "/sitemap.xml"`;
on a non-empty body with status 200 parse it, and if any URLs come back
enqueue the unvisited ones and report `true`; in every other case
(request exception, bad status, empty body, no parsed URLs, parse
failure) report `false` and leave the state unchanged. -/
def checkSitemap (env : Env) (root_url : String) (st : CrawlState) : Bool × CrawlState :=
  let sitemap_url := root_url ++ "/sitemap.xml"
  match env.fetch sitemap_url with
  | none => (false, st)
  | some (content, status) =>
    if content ≠ "" ∧ status = 200 then
      let urls := env.parseSitemap content
      if urls.isEmpty then (false, st)
      else (true, { st with queue := st.queue ++ urls.filter (fun u => decide (u ∉ st.visited)) })
    else (false, st)

/-- The seeding prologue of `SEOClusterCrawler.crawl`: if the queue is
empty, try the sitemap; if the sitemap was not used, append the start
URL.  Returns the `sitemap_found` flag together with the seeded state. -/
def seedQueue (env : Env) (start_url root_url : String) (st0 : CrawlState) :
    Bool × CrawlState :=
  let seeded := if st0.queue.isEmpty then checkSitemap env root_url st0 else (false, st0)
  if seeded.1 then seeded
  else (false, { seeded.2 with queue := seeded.2.queue ++ [start_url] })

/-- Result of `SEOClusterCrawler.crawl` restricted to the fields the
claims mention: the state at loop exit and the reported `sitemap_used`
flag. -/
structure CrawlOutcome where
  final : CrawlState
  sitemap_used : Bool

/-- `SEOClusterCrawler.crawl` up to the end of the frontier loop:
seeding (sitemap or homepage fallback) followed by the loop; the
`sitemap_used` field of the results dictionary is the seeding flag. -/
def crawlRun (env : Env) (start_url root_url : String) (max_pages fuel : Nat)
    (st0 : CrawlState) : CrawlOutcome :=
  let seeded := seedQueue env start_url root_url st0
  { final := crawlLoop env max_pages fuel seeded.2, sitemap_used := seeded.1 }

lemma trackLinks_fst (p : String) (links : List String)
    (acc : Finset String × (String → Finset String)) :
    (trackLinks p links acc).1 = acc.1 ∪ links.toFinset := by
  induction links generalizing acc with
  | nil => simp [trackLinks]
  | cons x xs ih =>
    simp [trackLinks, ih, Finset.insert_union, Finset.union_insert]

lemma trackLinks_snd (p : String) (links : List String)
    (acc : Finset String × (String → Finset String)) (l : String) :
    (trackLinks p links acc).2 l = if l ∈ links then insert p (acc.2 l) else acc.2 l := by
  induction links generalizing acc with
  | nil => simp [trackLinks]
  | cons x xs ih =>
    simp only [trackLinks]
    rw [ih]
    by_cases hx : l = x
    · subst hx
      by_cases hmem : l ∈ xs <;> simp [hmem, Finset.insert_idem]
    · by_cases hmem : l ∈ xs <;> simp [hx, hmem, List.mem_cons]

lemma add_page_links_total (st : NavState) (p : String) (links : List String) :
    (st.add_page_links p links).total_pages = st.total_pages + 1 := rfl

lemma add_page_links_threshold (st : NavState) (p : String) (links : List String) :
    (st.add_page_links p links).threshold = st.threshold := rfl

lemma add_page_links_global (st : NavState) (p : String) (links : List String) :
    (st.add_page_links p links).global_links = st.global_links := rfl

lemma add_page_links_occDom (st : NavState) (p : String) (links : List String) :
    (st.add_page_links p links).occDom = st.occDom ∪ links.toFinset :=
  trackLinks_fst p links (st.occDom, st.occ)

lemma add_page_links_occ (st : NavState) (p : String) (links : List String) (l : String) :
    (st.add_page_links p links).occ l =
      if l ∈ links then insert p (st.occ l) else st.occ l :=
  trackLinks_snd p links (st.occDom, st.occ) l

lemma navFoldl_inv {P : NavState → Prop}
    (step : ∀ (st : NavState) (op : NavOp), P st → P (st.add_page_links op.page op.links)) :
    ∀ (ops : List NavOp) (st : NavState), P st →
      P (ops.foldl (fun s op => s.add_page_links op.page op.links) st)
  | [], _, h => h
  | op :: ops, st, h => navFoldl_inv step ops _ (step st op h)

lemma applyNavOps_threshold (q : ℚ) (ops : List NavOp) :
    (applyNavOps q ops).threshold = q :=
  navFoldl_inv (P := fun st => st.threshold = q)
    (fun _ _ h => h) ops (navInit q) rfl

lemma applyNavOps_global (q : ℚ) (ops : List NavOp) :
    (applyNavOps q ops).global_links = ∅ :=
  navFoldl_inv (P := fun st => st.global_links = ∅)
    (fun _ _ h => h) ops (navInit q) rfl

lemma applyNavOps_occDom_closed (q : ℚ) (ops : List NavOp) :
    ∀ l, (applyNavOps q ops).occ l ≠ ∅ → l ∈ (applyNavOps q ops).occDom := by
  refine navFoldl_inv (P := fun st => ∀ l, st.occ l ≠ ∅ → l ∈ st.occDom)
    (fun st op h l hne => ?_) ops (navInit q) (fun l hne => absurd rfl hne)
  rw [add_page_links_occDom]
  rw [add_page_links_occ] at hne
  by_cases hmem : l ∈ op.links
  · exact Finset.mem_union_right _ (List.mem_toFinset.mpr hmem)
  · rw [if_neg hmem] at hne
    exact Finset.mem_union_left _ (h l hne)

lemma applyNavOps_card_le (q : ℚ) (ops : List NavOp) :
    ∀ l, ((applyNavOps q ops).occ l).card ≤ (applyNavOps q ops).total_pages := by
  refine navFoldl_inv (P := fun st => ∀ l, (st.occ l).card ≤ st.total_pages)
    (fun st op h l => ?_) ops (navInit q) (fun l => by simp [navInit])
  rw [add_page_links_occ, add_page_links_total]
  by_cases hmem : l ∈ op.links
  · rw [if_pos hmem]
    exact le_trans (Finset.card_insert_le _ _) (Nat.succ_le_succ (h l))
  · rw [if_neg hmem]
    exact le_trans (h l) (Nat.le_succ _)

lemma occ_subset_add_page_links (st : NavState) (p : String) (links : List String)
    (l : String) : st.occ l ⊆ (st.add_page_links p links).occ l := by
  rw [add_page_links_occ]
  by_cases hmem : l ∈ links
  · rw [if_pos hmem]; exact Finset.subset_insert _ _
  · rw [if_neg hmem]

lemma occ_subset_navFoldl (more : List NavOp) (st : NavState) (l : String) :
    st.occ l ⊆ (more.foldl (fun s op => s.add_page_links op.page op.links) st).occ l := by
  induction more generalizing st with
  | nil => exact subset_rfl
  | cons op ops ih =>
    exact Finset.Subset.trans (occ_subset_add_page_links st op.page op.links l) (ih _)

lemma applyNavOps_append (q : ℚ) (ops more : List NavOp) :
    applyNavOps q (ops ++ more) =
      more.foldl (fun s op => s.add_page_links op.page op.links) (applyNavOps q ops) :=
  List.foldl_append _ _ _ _

/-- Claim C8: over any sequence of `add_page_links` calls on a fresh
detector, a link's occurrence-set size never exceeds the number of pages
recorded, the occurrence set only grows when further calls are recorded,
and one call grows it by at most one page even if the link repeats in
that call's link list. -/
theorem claim_occurrence_invariants (q : ℚ) (ops : List NavOp) (l : String) :
    ((applyNavOps q ops).occ l).card ≤ (applyNavOps q ops).total_pages ∧
    (∀ more : List NavOp,
      (applyNavOps q ops).occ l ⊆ (applyNavOps q (ops ++ more)).occ l) ∧
    (∀ op : NavOp,
      ((applyNavOps q (ops ++ [op])).occ l).card ≤ ((applyNavOps q ops).occ l).card + 1) := by
  refine ⟨applyNavOps_card_le q ops l, fun more => ?_, fun op => ?_⟩
  · rw [applyNavOps_append]
    exact occ_subset_navFoldl more _ l
  · rw [applyNavOps_append]
    simp only [List.foldl_cons, List.foldl_nil]
    rw [add_page_links_occ]
    by_cases hmem : l ∈ op.links
    · rw [if_pos hmem]; exact Finset.card_insert_le _ _
    · rw [if_neg hmem]; exact Nat.le_succ _

/-- Claim C7: `filter_global_links` returns exactly the sublist of its
input absent from the classified global-link set, preserving order and
multiplicity, and on a detector on which classification has never run
(any sequence of `add_page_links` calls from a fresh detector) it
returns its input unchanged. -/
theorem claim_filter_global_links :
    (∀ (st : NavState) (links : List String),
      (st.filter_global_links links).Sublist links ∧
      ∀ l, (st.filter_global_links links).count l =
        if l ∈ st.global_links then 0 else links.count l) ∧
    (∀ (q : ℚ) (ops : List NavOp) (links : List String),
      (applyNavOps q ops).filter_global_links links = links) := by
  constructor
  · intro st links
    refine ⟨List.filter_sublist _, fun l => ?_⟩
    by_cases hl : l ∈ st.global_links
    · rw [if_pos hl]
      refine List.count_eq_zero.mpr fun hmem => ?_
      rcases List.mem_filter.mp hmem with ⟨-, hKeep⟩
      simp only [decide_eq_true_eq] at hKeep
      exact hKeep hl
    · rw [if_neg hl]
      exact List.count_filter (by simp [hl])
  · intro q ops links
    unfold NavState.filter_global_links
    rw [applyNavOps_global]
    exact List.filter_eq_self.mpr fun a _ => by simp

/-- Claim C1: on a detector with threshold 0.8 that has recorded exactly
10 pages, `detect_global_links` classifies precisely the links whose
occurrence set holds at least 8 pages (the threshold count
`10 * 0.8 = 8`); in particular 8 distinct pages suffice and 7 do not. -/
theorem claim_nav_classify_at_threshold_ten (ops : List NavOp)
    (h : (applyNavOps (4/5) ops).total_pages = 10) (l : String) :
    l ∈ ((applyNavOps (4/5) ops).detect_global_links).1 ↔
      8 ≤ ((applyNavOps (4/5) ops).occ l).card := by
  have hth : (applyNavOps (4/5) ops).threshold = 4/5 := applyNavOps_threshold _ _
  unfold NavState.detect_global_links
  rw [if_neg (by rw [h]; norm_num)]
  simp only [Finset.mem_filter]
  have hcount : ((applyNavOps (4/5) ops).total_pages : ℚ) * (applyNavOps (4/5) ops).threshold
      = 8 := by rw [h, hth]; norm_num
  rw [hcount]
  constructor
  · rintro ⟨-, hle⟩
    exact_mod_cast hle
  · intro h8
    refine ⟨applyNavOps_occDom_closed _ ops l fun hempty => ?_, by exact_mod_cast h8⟩
    rw [hempty] at h8
    simp at h8

/-- Concrete 10-page run for claim C1: link `g` occurs on pages
`p1..p8`, link `h` on pages `p1..p7`. -/
def tenPageOps : List NavOp :=
  [ ⟨"p1", ["g", "h"]⟩, ⟨"p2", ["g", "h"]⟩, ⟨"p3", ["g", "h"]⟩, ⟨"p4", ["g", "h"]⟩,
    ⟨"p5", ["g", "h"]⟩, ⟨"p6", ["g", "h"]⟩, ⟨"p7", ["g", "h"]⟩, ⟨"p8", ["g"]⟩,
    ⟨"p9", []⟩, ⟨"p10", []⟩ ]

/-- Witness for claim C1 at the run `tenPageOps`: the hypotheses hold and
a link on exactly 8 of the 10 pages is classified global while a link on
exactly 7 is not. -/
theorem claim_nav_classify_at_threshold_ten_witness :
    (applyNavOps (4/5) tenPageOps).total_pages = 10 ∧
    ((applyNavOps (4/5) tenPageOps).occ "g").card = 8 ∧
    ((applyNavOps (4/5) tenPageOps).occ "h").card = 7 ∧
    "g" ∈ ((applyNavOps (4/5) tenPageOps).detect_global_links).1 ∧
    "h" ∉ ((applyNavOps (4/5) tenPageOps).detect_global_links).1 := by
  have h10 : (applyNavOps (4/5) tenPageOps).total_pages = 10 := by decide
  have hg : ((applyNavOps (4/5) tenPageOps).occ "g").card = 8 := by decide
  have hh : ((applyNavOps (4/5) tenPageOps).occ "h").card = 7 := by decide
  refine ⟨h10, hg, hh, ?_, ?_⟩
  · exact (claim_nav_classify_at_threshold_ten tenPageOps h10 "g").mpr (by rw [hg])
  · intro hmem
    have := (claim_nav_classify_at_threshold_ten tenPageOps h10 "h").mp hmem
    rw [hh] at this
    omega

lemma add_link_outgoing_self (m : LinkMapper) (a b : String) :
    (m.add_link a b).outgoing a =
      if b ∈ m.outgoing a then m.outgoing a else m.outgoing a ++ [b] := by
  unfold LinkMapper.add_link
  by_cases h1 : b ∈ m.outgoing a <;> by_cases h2 : a ∈ m.backlinks b <;>
    simp [h1, h2, Function.update_same]

lemma add_link_outgoing_other (m : LinkMapper) (a b s : String) (h : s ≠ a) :
    (m.add_link a b).outgoing s = m.outgoing s := by
  unfold LinkMapper.add_link
  by_cases h1 : b ∈ m.outgoing a <;> by_cases h2 : a ∈ m.backlinks b <;>
    simp [h1, h2, Function.update_noteq h]

lemma add_link_backlinks_self (m : LinkMapper) (a b : String) :
    (m.add_link a b).backlinks b =
      if a ∈ m.backlinks b then m.backlinks b else m.backlinks b ++ [a] := by
  unfold LinkMapper.add_link
  by_cases h1 : b ∈ m.outgoing a <;> by_cases h2 : a ∈ m.backlinks b <;>
    simp [h1, h2, Function.update_same]

lemma add_link_backlinks_other (m : LinkMapper) (a b t : String) (h : t ≠ b) :
    (m.add_link a b).backlinks t = m.backlinks t := by
  unfold LinkMapper.add_link
  by_cases h1 : b ∈ m.outgoing a <;> by_cases h2 : a ∈ m.backlinks b <;>
    simp [h1, h2, Function.update_noteq h]

lemma add_link_total (m : LinkMapper) (a b : String) :
    (m.add_link a b).total_links_mapped =
      if b ∈ m.outgoing a then m.total_links_mapped else m.total_links_mapped + 1 := by
  unfold LinkMapper.add_link
  by_cases h1 : b ∈ m.outgoing a <;> by_cases h2 : a ∈ m.backlinks b <;>
    simp [h1, h2]

/-- Claim C4 (amended): from any mapper state in which `B` occurs at
most once in `outgoing[A]` and `A` at most once in `backlinks[B]` — true
of every state the program can build — calling `add_link(A, B)` twice
leaves `B` exactly once in `outgoing[A]` and `A` exactly once in
`backlinks[B]`, and raises `total_links_mapped` by 1 when the ordered
pair was absent beforehand and by 0 when it was already present. -/
theorem claim_add_link_idempotent (m : LinkMapper) (A B : String)
    (hout : (m.outgoing A).count B ≤ 1) (hback : (m.backlinks B).count A ≤ 1) :
    (((m.add_link A B).add_link A B).outgoing A).count B = 1 ∧
    (((m.add_link A B).add_link A B).backlinks B).count A = 1 ∧
    ((m.add_link A B).add_link A B).total_links_mapped =
      m.total_links_mapped + (if B ∈ m.outgoing A then 0 else 1) := by
  have hout1 : ((m.add_link A B).outgoing A).count B = 1 := by
    rw [add_link_outgoing_self]
    by_cases h1 : B ∈ m.outgoing A
    · rw [if_pos h1]
      exact le_antisymm hout (List.count_pos_iff.mpr h1)
    · rw [if_neg h1, List.count_append, List.count_eq_zero.mpr h1, List.count_singleton]
      simp
  have hback1 : ((m.add_link A B).backlinks B).count A = 1 := by
    rw [add_link_backlinks_self]
    by_cases h1 : A ∈ m.backlinks B
    · rw [if_pos h1]
      exact le_antisymm hback (List.count_pos_iff.mpr h1)
    · rw [if_neg h1, List.count_append, List.count_eq_zero.mpr h1, List.count_singleton]
      simp
  have hmem1 : B ∈ (m.add_link A B).outgoing A :=
    List.count_pos_iff.mp (by rw [hout1]; norm_num)
  have hbmem1 : A ∈ (m.add_link A B).backlinks B :=
    List.count_pos_iff.mp (by rw [hback1]; norm_num)
  refine ⟨?_, ?_, ?_⟩
  · rw [add_link_outgoing_self, if_pos hmem1]
    exact hout1
  · rw [add_link_backlinks_self, if_pos hbmem1]
    exact hback1
  · rw [add_link_total, if_pos hmem1, add_link_total]
    by_cases h1 : B ∈ m.outgoing A <;> simp [h1]

/-- A mapper state that already contains the edge (`"a"`, `"b"`), used
to exhibit that the unconditional "increments by exactly 1" reading of
claim C4 fails. -/
def mapperWithEdge : LinkMapper := mapperInit.add_link "a" "b"

/-- Counterexample to claim C4 as stated: from the (reachable) state
already containing the edge (`"a"`, `"b"`), invoking
`add_link("a", "b")` twice leaves `total_links_mapped` unchanged at 1 —
it does not increment by exactly 1. -/
theorem claim_add_link_idempotent_cex :
    ((mapperWithEdge.add_link "a" "b").add_link "a" "b").total_links_mapped =
      mapperWithEdge.total_links_mapped ∧
    mapperWithEdge.total_links_mapped = 1 := by
  constructor <;> decide

/-- Witness for the amended claim C4 at the empty mapper and the pair
(`"a"`, `"b"`): the count hypotheses hold and the double insertion
leaves one copy on each side and a counter increase of exactly 1. -/
theorem claim_add_link_idempotent_witness :
    (mapperInit.outgoing "a").count "b" ≤ 1 ∧
    (mapperInit.backlinks "b").count "a" ≤ 1 ∧
    ((((mapperInit.add_link "a" "b").add_link "a" "b").outgoing "a").count "b" = 1 ∧
     (((mapperInit.add_link "a" "b").add_link "a" "b").backlinks "b").count "a" = 1 ∧
     ((mapperInit.add_link "a" "b").add_link "a" "b").total_links_mapped =
       mapperInit.total_links_mapped + (if "b" ∈ mapperInit.outgoing "a" then 0 else 1)) :=
  ⟨by decide, by decide,
   claim_add_link_idempotent mapperInit "a" "b" (by decide) (by decide)⟩

/-- The transpose invariant relating the outgoing map and the backlink
map. -/
def TransposeInv (m : LinkMapper) : Prop :=
  ∀ s t : String, t ∈ m.outgoing s ↔ s ∈ m.backlinks t

lemma add_link_preserves_transpose (m : LinkMapper) (a b : String)
    (h : TransposeInv m) : TransposeInv (m.add_link a b) := by
  intro s t
  by_cases hs : s = a
  · subst hs
    by_cases ht : t = b
    · subst ht
      rw [add_link_outgoing_self, add_link_backlinks_self]
      constructor <;> intro _ <;> split <;>
        simp_all [List.mem_append, List.mem_singleton]
    · rw [add_link_backlinks_other m s b t ht, add_link_outgoing_self]
      split
      · exact h s t
      · rw [List.mem_append, List.mem_singleton]
        constructor
        · rintro (hm | rfl)
          · exact (h s t).mp hm
          · exact absurd rfl ht
        · intro hm
          exact Or.inl ((h s t).mpr hm)
  · rw [add_link_outgoing_other m a b s hs]
    by_cases ht : t = b
    · subst ht
      rw [add_link_backlinks_self]
      split
      · exact h s t
      · rw [List.mem_append, List.mem_singleton]
        constructor
        · intro hm
          exact Or.inl ((h s t).mp hm)
        · rintro (hm | rfl)
          · exact (h s t).mpr hm
          · exact absurd rfl hs
    · rw [add_link_backlinks_other m a b t ht]
      exact h s t

lemma add_page_links_preserves_transpose (m : LinkMapper) (s : String)
    (ts : List String) (h : TransposeInv m) :
    TransposeInv (m.add_page_links s ts) := by
  induction ts generalizing m with
  | nil => exact h
  | cons t ts ih => exact ih _ (add_link_preserves_transpose m s t h)

/-- Claim C9: after any sequence of `add_link` / `add_page_links` calls
on a fresh mapper, the outgoing and backlink maps are exact transposes:
`B` lies in `outgoing[A]` exactly when `A` lies in `backlinks[B]`. -/
theorem claim_outgoing_backlink_transpose (ops : List MapperOp) (s t : String) :
    t ∈ (applyMapperOps ops).outgoing s ↔ s ∈ (applyMapperOps ops).backlinks t := by
  suffices h : TransposeInv (applyMapperOps ops) from h s t
  unfold applyMapperOps
  have base : TransposeInv mapperInit := by
    intro s t
    simp [mapperInit]
  generalize mapperInit = m0 at base ⊢
  induction ops generalizing m0 with
  | nil => exact base
  | cons op ops ih =>
    cases op with
    | addLink a b =>
      exact ih _ (add_link_preserves_transpose m0 a b base)
    | addPageLinks a bs =>
      exact ih _ (add_page_links_preserves_transpose m0 a bs base)

lemma filter_global_links_ne_nil (nav : NavState) (l : List String) :
    nav.filter_global_links l ≠ [] ↔ ∃ x ∈ l, x ∉ nav.global_links := by
  unfold NavState.filter_global_links
  rw [Ne, List.filter_eq_nil_iff]
  push_neg
  simp

/-- Claim C10: `apply_global_link_filtering` drops empty entries: a
source all of whose outgoing targets are global is absent from the
filtered outgoing map's keys, a target all of whose backlink sources are
global is absent from the filtered backlink map's keys, and the
`pages_with_filtered_*` statistics count exactly the pages with at least
one surviving link. -/
theorem claim_filtered_views_drop_empty (m : LinkMapper) (nav : NavState) :
    (∀ s ∈ m.outDom, (∀ t ∈ m.outgoing s, t ∈ nav.global_links) →
        s ∉ (m.apply_global_link_filtering nav).filteredOutDom) ∧
    (∀ t ∈ m.backDom, (∀ s ∈ m.backlinks t, s ∈ nav.global_links) →
        t ∉ (m.apply_global_link_filtering nav).filteredBackDom) ∧
    (m.apply_global_link_filtering nav).pagesWithFilteredOutgoing =
      (m.outDom.filter fun s => ∃ t ∈ m.outgoing s, t ∉ nav.global_links).card ∧
    (m.apply_global_link_filtering nav).pagesWithFilteredBacklinks =
      (m.backDom.filter fun t => ∃ s ∈ m.backlinks t, s ∉ nav.global_links).card := by
  refine ⟨?_, ?_, ?_, ?_⟩
  · intro s hs hall hmem
    rcases Finset.mem_filter.mp hmem with ⟨-, hne⟩
    rcases (filter_global_links_ne_nil nav _).mp hne with ⟨x, hx, hxg⟩
    exact hxg (hall x hx)
  · intro t ht hall hmem
    rcases Finset.mem_filter.mp hmem with ⟨-, hne⟩
    rcases (filter_global_links_ne_nil nav _).mp hne with ⟨x, hx, hxg⟩
    exact hxg (hall x hx)
  · unfold LinkMapper.pagesWithFilteredOutgoing LinkMapper.apply_global_link_filtering
    congr 1
    exact Finset.filter_congr fun s _ => filter_global_links_ne_nil nav _
  · unfold LinkMapper.pagesWithFilteredBacklinks LinkMapper.apply_global_link_filtering
    congr 1
    exact Finset.filter_congr fun t _ => filter_global_links_ne_nil nav _

/-- A two-edge mapper for the claim C10 witness: page `"a"` links only
to `"g"`, and page `"g"` links to `"d"` (so `"d"`'s only backlink
source is `"g"`). -/
def twoEdgeMapper : LinkMapper := (mapperInit.add_link "a" "g").add_link "g" "d"

/-- A detector state whose classified global set is exactly
`{"g"}`. -/
def navAllG : NavState := { navInit (4/5) with global_links := {"g"} }

/-- Witness for claim C10 at `twoEdgeMapper` and `navAllG`: page `"a"`,
whose only outgoing target `"g"` is global, is dropped from the filtered
outgoing keys, and target `"d"`, whose only backlink source `"g"` is
global, is dropped from the filtered backlink keys. -/
theorem claim_filtered_views_drop_empty_witness :
    "a" ∈ twoEdgeMapper.outDom ∧
    (∀ t ∈ twoEdgeMapper.outgoing "a", t ∈ navAllG.global_links) ∧
    "a" ∉ (twoEdgeMapper.apply_global_link_filtering navAllG).filteredOutDom ∧
    "d" ∉ (twoEdgeMapper.apply_global_link_filtering navAllG).filteredBackDom := by
  have h := claim_filtered_views_drop_empty twoEdgeMapper navAllG
  refine ⟨by decide, by decide, ?_, ?_⟩
  · exact h.1 "a" (by decide) (by decide)
  · exact h.2.1 "d" (by decide) (by decide)

/-- Counterexample to claim C5 as stated: against a root of
`http://example.com`, the code accepts `http://www.www.example.com/a` as
same-domain — Python's `str.replace('www.', '')` removes every
occurrence of the substring — while the claimed comparison after
stripping one leading `"www."` from each host rejects it. -/
theorem claim_same_domain_cex :
    is_same_domain "http://example.com" "http://www.www.example.com/a" = true ∧
    specSameDomain "http://example.com" "http://www.www.example.com/a" = false := by
  constructor <;> decide

/-- Claim C5 (amended): `is_same_domain` holds exactly when the two
hosts agree after removing every occurrence of the substring `"www."`
from each side (not only a leading one); the two examples the claim
names are both same-domain against the root `http://example.com`, as is
a query-only URL whose netloc ends at the `'?'`. -/
theorem claim_same_domain_normalization :
    (∀ start_url url : String,
      is_same_domain start_url url = true ↔
        normalizeDomain (hostOf url) = normalizeDomain (hostOf start_url)) ∧
    is_same_domain "http://example.com" "http://www.example.com/a" = true ∧
    is_same_domain "http://example.com" "http://example.com/b" = true ∧
    is_same_domain "http://example.com" "http://example.com?x" = true := by
  refine ⟨fun s u => ?_, by decide, by decide, by decide⟩
  unfold is_same_domain
  exact beq_iff_eq

lemma crawlStep_queue_nil (env : Env) (st : CrawlState) (h : st.queue = []) :
    crawlStep env st = st := by
  unfold crawlStep
  rw [h]

lemma crawlStep_visited (env : Env) (st : CrawlState) (current : String)
    (rest : List String) (hq : st.queue = current :: rest) (hv : current ∈ st.visited) :
    crawlStep env st = { st with queue := rest } := by
  unfold crawlStep
  rw [hq]
  simp only [if_pos hv]

lemma crawlStep_nofetch (env : Env) (st : CrawlState) (current : String)
    (rest : List String) (hq : st.queue = current :: rest) (hv : current ∉ st.visited)
    (hf : env.fetch current = none) :
    crawlStep env st = { st with
      queue := rest
      visited := insert current st.visited
      fetch_log := st.fetch_log ++ [current] } := by
  unfold crawlStep
  rw [hq]
  simp only [if_neg hv, hf]

lemma crawlStep_success (env : Env) (st : CrawlState) (current : String)
    (rest : List String) (html : String) (status : Nat)
    (hq : st.queue = current :: rest) (hv : current ∉ st.visited)
    (hf : env.fetch current = some (html, status)) (hc : html ≠ "" ∧ status = 200) :
    crawlStep env st = { st with
      queue := rest ++ (env.extract current).filter
        (fun l => decide (l ∉ insert current st.visited))
      visited := insert current st.visited
      page_count := st.page_count + 1
      pages_data := st.pages_data ++ [PageEntry.ok current status (env.extract current)]
      mapper := st.mapper.add_page_links current (env.extract current)
      nav := st.nav.add_page_links current (env.extract current)
      fetch_log := st.fetch_log ++ [current] } := by
  unfold crawlStep
  rw [hq]
  simp only [if_neg hv, hf, if_pos hc]

lemma crawlStep_httpfail (env : Env) (st : CrawlState) (current : String)
    (rest : List String) (html : String) (status : Nat)
    (hq : st.queue = current :: rest) (hv : current ∉ st.visited)
    (hf : env.fetch current = some (html, status))
    (hc : ¬(html ≠ "" ∧ status = 200)) (hs : status ≠ 0) :
    crawlStep env st = { st with
      queue := rest
      visited := insert current st.visited
      page_count := st.page_count + 1
      pages_data := st.pages_data ++ [PageEntry.err current status]
      fetch_log := st.fetch_log ++ [current] } := by
  unfold crawlStep
  rw [hq]
  simp only [if_neg hv, hf, if_neg hc, if_pos hs]

lemma crawlStep_zero_status (env : Env) (st : CrawlState) (current : String)
    (rest : List String) (html : String) (status : Nat)
    (hq : st.queue = current :: rest) (hv : current ∉ st.visited)
    (hf : env.fetch current = some (html, status))
    (hc : ¬(html ≠ "" ∧ status = 200)) (hs : ¬status ≠ 0) :
    crawlStep env st = { st with
      queue := rest
      visited := insert current st.visited
      fetch_log := st.fetch_log ++ [current] } := by
  unfold crawlStep
  rw [hq]
  simp only [if_neg hv, hf, if_neg hc, if_neg hs]

/-- The bookkeeping invariant of the crawl loop: `pages_data` has one
entry per counted page, the fetch log has no repeats, and every fetched
URL is in the visited set. -/
def LogInv (st : CrawlState) : Prop :=
  st.pages_data.length = st.page_count ∧ st.fetch_log.Nodup ∧
    ∀ u ∈ st.fetch_log, u ∈ st.visited

lemma crawlStep_props (env : Env) (st : CrawlState) (h : LogInv st) :
    LogInv (crawlStep env st) ∧ (crawlStep env st).page_count ≤ st.page_count + 1 := by
  obtain ⟨hlen, hnodup, hsub⟩ := h
  cases hq : st.queue with
  | nil =>
    rw [crawlStep_queue_nil env st hq]
    exact ⟨⟨hlen, hnodup, hsub⟩, Nat.le_succ _⟩
  | cons current rest =>
    by_cases hv : current ∈ st.visited
    · rw [crawlStep_visited env st current rest hq hv]
      exact ⟨⟨hlen, hnodup, hsub⟩, Nat.le_succ _⟩
    · have hcnotin : current ∉ st.fetch_log := fun hcin => hv (hsub current hcin)
      have hnodup' : (st.fetch_log ++ [current]).Nodup := by
        simp [List.nodup_append, hnodup, hcnotin]
      have hsub' : ∀ u ∈ st.fetch_log ++ [current], u ∈ insert current st.visited := by
        intro u hu
        rcases List.mem_append.mp hu with hu | hu
        · exact Finset.mem_insert_of_mem (hsub u hu)
        · rw [List.mem_singleton] at hu
          subst hu
          exact Finset.mem_insert_self _ _
      cases hf : env.fetch current with
      | none =>
        rw [crawlStep_nofetch env st current rest hq hv hf]
        exact ⟨⟨hlen, hnodup', hsub'⟩, Nat.le_succ _⟩
      | some pr =>
        obtain ⟨html, status⟩ := pr
        by_cases hc : html ≠ "" ∧ status = 200
        · rw [crawlStep_success env st current rest html status hq hv hf hc]
          refine ⟨⟨?_, hnodup', hsub'⟩, le_refl _⟩
          simp [hlen]
        · by_cases hs : status ≠ 0
          · rw [crawlStep_httpfail env st current rest html status hq hv hf hc hs]
            refine ⟨⟨?_, hnodup', hsub'⟩, le_refl _⟩
            simp [hlen]
          · rw [crawlStep_zero_status env st current rest html status hq hv hf hc hs]
            exact ⟨⟨hlen, hnodup', hsub'⟩, Nat.le_succ _⟩

lemma crawlLoop_succ (env : Env) (max_pages n : Nat) (st : CrawlState) :
    crawlLoop env max_pages (n + 1) st =
      if st.queue ≠ [] ∧ st.page_count < max_pages then
        crawlLoop env max_pages n (crawlStep env st)
      else st := rfl

lemma crawlLoop_props (env : Env) (max_pages : Nat) :
    ∀ (fuel : Nat) (st : CrawlState), LogInv st → st.page_count ≤ max_pages →
      LogInv (crawlLoop env max_pages fuel st) ∧
        (crawlLoop env max_pages fuel st).page_count ≤ max_pages := by
  intro fuel
  induction fuel with
  | zero => exact fun st h hle => ⟨h, hle⟩
  | succ n ih =>
    intro st h hle
    rw [crawlLoop_succ]
    by_cases hcond : st.queue ≠ [] ∧ st.page_count < max_pages
    · rw [if_pos hcond]
      obtain ⟨hinv, hstep⟩ := crawlStep_props env st h
      exact ih (crawlStep env st) hinv (le_trans hstep hcond.2)
    · rw [if_neg hcond]
      exact ⟨h, hle⟩

lemma seedQueue_shape (env : Env) (start_url root_url : String) (st : CrawlState) :
    ∃ qs : List String, (seedQueue env start_url root_url st).2 = { st with queue := qs } := by
  unfold seedQueue checkSitemap
  by_cases hq : st.queue.isEmpty
  · simp only [hq, if_true]
    cases hf : env.fetch (root_url ++ "/sitemap.xml") with
    | none => exact ⟨st.queue ++ [start_url], rfl⟩
    | some pr =>
      obtain ⟨content, status⟩ := pr
      by_cases hc : content ≠ "" ∧ status = 200
      · simp only [if_pos hc]
        by_cases he : (env.parseSitemap content).isEmpty
        · simp only [he, if_true]
          exact ⟨st.queue ++ [start_url], rfl⟩
        · simp only [he, if_false]
          exact ⟨st.queue ++ (env.parseSitemap content).filter
            (fun u => decide (u ∉ st.visited)), rfl⟩
      · simp only [if_neg hc]
        exact ⟨st.queue ++ [start_url], rfl⟩
  · simp only [hq, if_false]
    exact ⟨st.queue ++ [start_url], rfl⟩

/-- Claim C2 (amended): for every crawl run (any environment, start URL,
page cap and fuel) launched from a fresh crawler, at loop exit the page
count — and with it the number of recorded page entries — is at most
`max_pages`, and every URL was fetched at most once.  (The visited set
itself is *not* bounded by `max_pages`: a URL whose fetch raises without
a status code is marked visited without being counted, see the
counterexample.) -/
theorem claim_page_count_bound_and_unique_fetch (q : ℚ) (env : Env)
    (start_url root_url : String) (max_pages fuel : Nat) :
    (crawlRun env start_url root_url max_pages fuel (crawlInit q)).final.page_count
        ≤ max_pages ∧
    (crawlRun env start_url root_url max_pages fuel (crawlInit q)).final.pages_data.length
        ≤ max_pages ∧
    ∀ u : String,
      (crawlRun env start_url root_url max_pages fuel (crawlInit q)).final.fetch_log.count u
        ≤ 1 := by
  have hrun : (crawlRun env start_url root_url max_pages fuel (crawlInit q)).final =
      crawlLoop env max_pages fuel (seedQueue env start_url root_url (crawlInit q)).2 := rfl
  obtain ⟨qs, hqs⟩ := seedQueue_shape env start_url root_url (crawlInit q)
  have hinv : LogInv (seedQueue env start_url root_url (crawlInit q)).2 := by
    rw [hqs]
    exact ⟨rfl, List.nodup_nil, fun u hu => absurd hu (List.not_mem_nil u)⟩
  have hcount : (seedQueue env start_url root_url (crawlInit q)).2.page_count = 0 := by
    rw [hqs]
    rfl
  have hfinal := crawlLoop_props env max_pages fuel
    (seedQueue env start_url root_url (crawlInit q)).2 hinv (by rw [hcount]; exact Nat.zero_le _)
  obtain ⟨⟨hlen, hnodup, -⟩, hle⟩ := hfinal
  rw [hrun]
  refine ⟨hle, by rw [hlen]; exact hle, fun u => ?_⟩
  exact List.nodup_iff_count_le_one.mp hnodup u

/-- Environment for the claim C2 counterexample: no sitemap, the start
page `u0` succeeds and links to `a`, `b`, `c`, and every other fetch
raises a request exception (the `(None, None)` return of
`fetch_page`). -/
def lostFetchEnv : Env :=
  { fetch := fun u => if u = "u0" then some ("h", 200) else none
    extract := fun u => if u = "u0" then ["a", "b", "c"] else []
    parseSitemap := fun _ => [] }

/-- Counterexample to claim C2 as stated: with `max_pages = 2`, the run
seeded at `u0` exits the loop (empty queue) with four URLs in the
visited set — `|visited| ≤ max_pages` fails, because the three URLs
whose fetch raised were marked visited without being counted. -/
theorem claim_visited_bound_cex :
    (crawlRun lostFetchEnv "u0" "u0" 2 10 (crawlInit (4/5))).final.queue = [] ∧
    (crawlRun lostFetchEnv "u0" "u0" 2 10 (crawlInit (4/5))).final.visited.card = 4 ∧
    2 < (crawlRun lostFetchEnv "u0" "u0" 2 10 (crawlInit (4/5))).final.visited.card := by
  refine ⟨by decide, by decide, by decide⟩

/-- Claim C3 (amended): for a dequeued, unvisited URL whose fetch
completes with a status but no retrievable content (bad status or empty
body), the loop appends exactly one error entry for that URL, increments
the page count, and leaves the link mapper and the navigation detector
untouched; for a fetch that raises (no status code at all) it records
nothing and counts nothing — the URL is only marked visited — and again
no edges or occurrences are added. -/
theorem claim_fetch_failure_recording (env : Env) (st : CrawlState)
    (current : String) (rest : List String)
    (hq : st.queue = current :: rest) (hv : current ∉ st.visited) :
    (∀ html status, env.fetch current = some (html, status) →
      ¬(html ≠ "" ∧ status = 200) → status ≠ 0 →
      crawlStep env st = { st with
        queue := rest
        visited := insert current st.visited
        page_count := st.page_count + 1
        pages_data := st.pages_data ++ [PageEntry.err current status]
        fetch_log := st.fetch_log ++ [current] }) ∧
    (env.fetch current = none →
      crawlStep env st = { st with
        queue := rest
        visited := insert current st.visited
        fetch_log := st.fetch_log ++ [current] }) :=
  ⟨fun html status hf hc hs => crawlStep_httpfail env st current rest html status hq hv hf hc hs,
   fun hf => crawlStep_nofetch env st current rest hq hv hf⟩

/-- Environment in which every fetch raises a request exception. -/
def deadFetchEnv : Env :=
  { fetch := fun _ => none
    extract := fun _ => []
    parseSitemap := fun _ => [] }

/-- Environment in which every fetch completes with HTTP 404. -/
def notFoundEnv : Env :=
  { fetch := fun _ => some ("err", 404)
    extract := fun _ => []
    parseSitemap := fun _ => [] }

/-- A fresh crawler state whose queue holds the single URL `u`. -/
def singleUrlState : CrawlState := { crawlInit (4/5) with queue := ["u"] }

/-- Counterexample to claim C3 as stated: when the fetch of the dequeued
URL `u` fails with no body *and no status* (a request exception), the
loop records no page-level error entry and does not increment the page
count — contradicting the claim that every failed fetch is recorded and
counted. -/
theorem claim_fetch_failure_cex :
    deadFetchEnv.fetch "u" = none ∧
    singleUrlState.queue = ["u"] ∧
    (crawlStep deadFetchEnv singleUrlState).pages_data = [] ∧
    (crawlStep deadFetchEnv singleUrlState).page_count = 0 ∧
    "u" ∈ (crawlStep deadFetchEnv singleUrlState).visited := by
  refine ⟨rfl, rfl, by decide, by decide, by decide⟩

/-- Witness for the amended claim C3 at the concrete state
`singleUrlState` and a 404 response: the iteration appends the error
entry for `u`, counts the page, and changes nothing else. -/
theorem claim_fetch_failure_recording_witness :
    singleUrlState.queue = "u" :: [] ∧ "u" ∉ singleUrlState.visited ∧
    crawlStep notFoundEnv singleUrlState = { singleUrlState with
      queue := []
      visited := insert "u" singleUrlState.visited
      page_count := singleUrlState.page_count + 1
      pages_data := singleUrlState.pages_data ++ [PageEntry.err "u" 404]
      fetch_log := singleUrlState.fetch_log ++ ["u"] } :=
  ⟨rfl, by decide,
   (claim_fetch_failure_recording notFoundEnv singleUrlState "u" [] rfl
      (by decide)).1 "err" 404 rfl (by decide) (by decide)⟩

/-- Claim C6: when the queue starts empty and the sitemap request fails
(request exception, non-200 status or empty body) or yields no URLs
(including parse failure, which produces an empty URL list), the sitemap
check reports `false` without touching the state, seeding falls back to
exactly the single start URL, and the crawl reports
`sitemap_used = false` for every page cap and fuel. -/
theorem claim_sitemap_fallback (env : Env) (start_url root_url : String)
    (st0 : CrawlState) (hq : st0.queue = [])
    (habs : env.fetch (root_url ++ "/sitemap.xml") = none ∨
      ∃ content status, env.fetch (root_url ++ "/sitemap.xml") = some (content, status) ∧
        (¬(content ≠ "" ∧ status = 200) ∨ env.parseSitemap content = [])) :
    checkSitemap env root_url st0 = (false, st0) ∧
    (seedQueue env start_url root_url st0).2.queue = [start_url] ∧
    ∀ max_pages fuel : Nat,
      (crawlRun env start_url root_url max_pages fuel st0).sitemap_used = false := by
  have hcheck : checkSitemap env root_url st0 = (false, st0) := by
    unfold checkSitemap
    rcases habs with hf | ⟨content, status, hf, hbad⟩
    · simp only [hf]
    · simp only [hf]
      rcases hbad with hbad | hempty
      · rw [if_neg hbad]
      · by_cases hc : content ≠ "" ∧ status = 200
        · simp only [if_pos hc, hempty, List.isEmpty_nil, if_true]
        · rw [if_neg hc]
  have hseed : seedQueue env start_url root_url st0 =
      (false, { st0 with queue := [start_url] }) := by
    simp only [seedQueue, hq, List.isEmpty_nil, if_true, hcheck, List.nil_append,
      Bool.false_eq_true, if_false]
  refine ⟨hcheck, ?_, fun max_pages fuel => ?_⟩
  · rw [hseed]
  · show (seedQueue env start_url root_url st0).1 = false
    rw [hseed]

/-- Environment for the claim C6 witness: the sitemap request for
`https://example.com/sitemap.xml` returns HTTP 404 and everything else
raises. -/
def notFoundSitemapEnv : Env :=
  { fetch := fun u => if u = "https://example.com/sitemap.xml"
      then some ("notfound", 404) else none
    extract := fun _ => []
    parseSitemap := fun _ => [] }

/-- Witness for claim C6 at a fresh crawler and the 404-sitemap
environment: the check reports `false`, the queue is seeded with exactly
the start URL, and the crawl reports `sitemap_used = false`. -/
theorem claim_sitemap_fallback_witness :
    checkSitemap notFoundSitemapEnv "https://example.com" (crawlInit (4/5)) =
      (false, crawlInit (4/5)) ∧
    (seedQueue notFoundSitemapEnv "https://example.com" "https://example.com"
      (crawlInit (4/5))).2.queue = ["https://example.com"] ∧
    (crawlRun notFoundSitemapEnv "https://example.com" "https://example.com" 100 100
      (crawlInit (4/5))).sitemap_used = false := by
  have h := claim_sitemap_fallback notFoundSitemapEnv "https://example.com"
    "https://example.com" (crawlInit (4/5)) rfl
    (Or.inr ⟨"notfound", 404, by decide, Or.inl (by decide)⟩)
  exact ⟨h.1, h.2.1, h.2.2 100 100⟩

end SeoCrawler
